import Mathlib

/-!
Shallow embedding of the inventory-management pipeline
(src/inventorymanagement.py): field extraction from message bodies,
date normalisation, row validation, schema assembly, priority sorting,
the anomaly-audit passes and the processing-loop counters, together
with theorems settling the specified behaviour of each component.

All text operations are implemented by structural recursion over
`List Char` so that every definition evaluates inside the kernel.
-/

namespace Inv

/-- Whitespace test used by Python's `str.strip`, `re` class `\s` and
`str.splitlines` on the ASCII range: space, tab, newline, carriage
return, vertical tab, form feed. -/
def wsChar (c : Char) : Bool :=
  c == ' ' || c == '\t' || c == '\n' || c == '\r' || c == '\x0b' || c == '\x0c'

/-- Remove leading and trailing whitespace from a character list
(Python `str.strip()`). -/
def stripL (cs : List Char) : List Char :=
  ((cs.dropWhile wsChar).reverse.dropWhile wsChar).reverse

/-- Python `str.strip()` at the `String` level. -/
def pyTrim (s : String) : String :=
  ⟨stripL s.data⟩

/-- Python `str.lower()` (ASCII). -/
def pyLower (s : String) : String :=
  ⟨s.data.map Char.toLower⟩

/-- Python `str.upper()` (ASCII). -/
def pyUpper (s : String) : String :=
  ⟨s.data.map Char.toUpper⟩

/-- Does `cs` start with `pat` (exact characters)? -/
def isPrefixL (pat cs : List Char) : Bool :=
  match pat, cs with
  | [], _ => true
  | _ :: _, [] => false
  | p :: ps, c :: cs => p == c && isPrefixL ps cs

/-- Does `cs` contain `pat` as a contiguous substring
(Python `pat in cs`)? -/
def containsSubL (pat : List Char) : List Char → Bool
  | [] => isPrefixL pat []
  | c :: cs => isPrefixL pat (c :: cs) || containsSubL pat (c :: cs).tail

/-- Substring containment at the `String` level. -/
def containsSub (s pat : String) : Bool :=
  containsSubL pat.data s.data

/-- Case-insensitively strip `label` from the front of `cs`, returning
the remainder; models matching `re.escape(label)` under
`re.IGNORECASE`. -/
def stripLabelCI (label cs : List Char) : Option (List Char) :=
  match label, cs with
  | [], cs => some cs
  | _ :: _, [] => none
  | l :: ls, c :: cs =>
    if l.toLower == c.toLower then stripLabelCI ls cs else none

/-- Attempt the pattern `label\s*:\s*(.*)$` (IGNORECASE, MULTILINE) at
the current position: match the label case-insensitively, skip
whitespace, require a colon, greedily skip whitespace (which in `re`
crosses newlines), then capture to the end of that line.  Returns the
captured group together with the text after the match end. -/
def reMatchAt (label cs : List Char) : Option (List Char × List Char) :=
  match stripLabelCI label cs with
  | none => none
  | some r1 =>
    match r1.dropWhile wsChar with
    | [] => none
    | c :: r3 =>
      if c == ':' then
        let r4 := r3.dropWhile wsChar
        let g := r4.takeWhile (fun c2 => c2 != '\n')
        some (g, r4.drop g.length)
      else none

/-- All suffixes of `cs` that begin just after a newline: together with
`cs` itself these are exactly the positions where `^` matches under
`re.MULTILINE`. -/
def lineTails : List Char → List (List Char)
  | [] => []
  | '\n' :: cs => cs :: lineTails cs
  | _ :: cs => lineTails cs

/-- Leftmost match of `^label\s*:\s*(.*)$` in `cs`
(models `pattern.search(body)`). -/
def reSearch (label cs : List Char) : Option (List Char × List Char) :=
  List.findSome? (reMatchAt label) (cs :: lineTails cs)

/-- Split on newline characters, keeping empty segments
(every list returned has one more element than the number of
newlines). -/
def splitNl : List Char → List (List Char)
  | [] => [[]]
  | '\n' :: cs => [] :: splitNl cs
  | c :: cs =>
    match splitNl cs with
    | [] => [[c]]
    | l :: ls => (c :: l) :: ls

/-- Python `str.splitlines()` restricted to `\n` terminators: empty
string gives no lines, and a trailing newline does not produce a
trailing empty line. -/
def pySplitlines (cs : List Char) : List (List Char) :=
  if cs.isEmpty then []
  else
    let ps := splitNl cs
    if cs.getLast? == some '\n' then ps.dropLast else ps

/-- The lookahead loop of `extract_field` (lines 191-194 of the
source): iterate over `tail.splitlines()`, breaking on a blank line and
returning the first line stripped otherwise — so only the first line is
ever examined. -/
def firstLineLoop (tail : List Char) : Option String :=
  match pySplitlines tail with
  | [] => none
  | line :: _ => if (stripL line).isEmpty then none else some ⟨stripL line⟩

/-- FieldExtractor (`extract_field`, source lines 177-194): find the
first line starting with `label` followed by a colon; return the inline
remainder of that line stripped if non-empty, otherwise run the
single-line lookahead loop on the text after the match. -/
def extract_field (body label : String) : Option String :=
  if body.data.isEmpty then none
  else
    match reSearch label.data body.data with
    | none => none
    | some (g, tail) =>
      let inline := stripL g
      if inline.isEmpty then firstLineLoop tail else some ⟨inline⟩

/-- Strip the listed characters from both ends of a character list
(Python `str.strip(chars)`). -/
def stripCharsL (chars cs : List Char) : List Char :=
  ((cs.dropWhile (chars.contains ·)).reverse.dropWhile (chars.contains ·)).reverse

/-- Python `s.split(sep, 1)[0]`: the characters before the first
occurrence of `sep` (a single character here). -/
def beforeChar (sep : Char) (cs : List Char) : List Char :=
  cs.takeWhile (fun c => c != sep)

/-- Python `s.split(sep, 1)[1]`: the characters after the first
occurrence of `sep`. -/
def afterChar (sep : Char) (cs : List Char) : List Char :=
  ((cs.dropWhile (fun c => c != sep)).drop 1)

/-- NameNormalizer (`clean_name`, source lines 198-207): strip
whitespace and quote characters, drop an angle-bracket e-mail segment,
and reorder a single `Last, First` comma split to `First Last`. -/
def clean_name (s : String) : String :=
  if s == "" then s
  else
    let cs := stripCharsL ['"', Char.ofNat 39] (stripL s.data)
    let cs := if containsSubL ['<'] cs then stripL (beforeChar '<' cs) else cs
    if containsSubL [','] cs then
      ⟨stripL (afterChar ',' cs) ++ ' ' :: stripL (beforeChar ',' cs)⟩
    else ⟨cs⟩

/-- Configured workflow default placeholder (source line 134). -/
def WORKFLOW_DEFAULT : String := "N/A, Workflow"

/-- Configured workflow placeholder for a missing room (source
line 135). -/
def WORKFLOW_NO_ROOM : String := "NA"

/-- Configured workflow subject marker (source line 138). -/
def WORKFLOW_SUBJECT_KEY : String := "[INSERT EMAIL SUBJECT KEY HERE]"

/-- Reserved junk serial values rejected by RowValidator (source
line 270). -/
def junk_values : List String :=
  ["nan", "none", "null", "n/a", "", "serial number"]

/-- Python `str()` applied to a possibly missing cell: pandas
`astype(str)` renders a missing value as the text `nan`. -/
def pyStr (v : Option String) : String :=
  match v with
  | none => "nan"
  | some s => s

/-- RowValidator's per-row test (source line 270): the serial cell,
stringified, trimmed and lowercased, lies in the reserved junk set, or
the cell is missing. -/
def bad_serial (v : Option String) : Bool :=
  junk_values.contains (pyLower (pyTrim (pyStr v))) || v.isNone

/-- RowValidator (`remove_bad_rows`, source lines 264-271) on the rows
of a frame carrying a Serial Number column: keep exactly the rows whose
serial cell is not junk.  A row is a serial cell paired with an opaque
payload standing for the remaining columns. -/
def remove_bad_rows (rows : List (Option String × Nat)) : List (Option String × Nat) :=
  rows.filter (fun r => !(bad_serial r.1))

/-- A cell of the date column: a piece of text or the pandas missing
marker (NaN / NaT). -/
inductive Cell where
  | str (s : String)
  | nan
deriving DecidableEq, Repr

/-- Numeric value of a digit character. -/
def digitVal (c : Char) : Nat := c.toNat - 48

/-- Character for the last decimal digit of `k`. -/
def digitChar10 (k : Nat) : Char := Char.ofNat (48 + k % 10)

/-- Date parsing as performed by `pd.to_datetime` on text, modelled on
the two fixed-width formats exercised by this development
(`MM/DD/YYYY` and `YYYY-MM-DD`, with field bounds checked); every
other string is unparsable. -/
def parseDate (s : String) : Option (Nat × Nat × Nat) :=
  match s.data with
  | [m1, m2, '/', d1, d2, '/', y1, y2, y3, y4] =>
    if m1.isDigit && m2.isDigit && d1.isDigit && d2.isDigit &&
        y1.isDigit && y2.isDigit && y3.isDigit && y4.isDigit then
      let m := 10 * digitVal m1 + digitVal m2
      let d := 10 * digitVal d1 + digitVal d2
      let y := 1000 * digitVal y1 + 100 * digitVal y2 + 10 * digitVal y3 + digitVal y4
      if 1 ≤ m && m ≤ 12 && 1 ≤ d && d ≤ 31 && 1000 ≤ y then some (y, m, d) else none
    else none
  | [y1, y2, y3, y4, '-', m1, m2, '-', d1, d2] =>
    if m1.isDigit && m2.isDigit && d1.isDigit && d2.isDigit &&
        y1.isDigit && y2.isDigit && y3.isDigit && y4.isDigit then
      let m := 10 * digitVal m1 + digitVal m2
      let d := 10 * digitVal d1 + digitVal d2
      let y := 1000 * digitVal y1 + 100 * digitVal y2 + 10 * digitVal y3 + digitVal y4
      if 1 ≤ m && m ≤ 12 && 1 ≤ d && d ≤ 31 && 1000 ≤ y then some (y, m, d) else none
    else none
  | _ => none

/-- Datetime coercion of one cell, as performed by
`pd.to_datetime(df[c], errors='coerce')` (source line 170): a missing
cell or unparsable text coerces to the missing marker NaT (`none`). -/
def to_datetime_coerce (c : Cell) : Option (Nat × Nat × Nat) :=
  match c with
  | Cell.nan => none
  | Cell.str s => parseDate s

/-- Rendering of a parsed date by `.dt.strftime('%m/%d/%Y')` (source
lines 133 and 170): zero-padded month and day, four-digit year. -/
def formatMDY (y m d : Nat) : String :=
  ⟨[digitChar10 (m / 10), digitChar10 m, '/',
    digitChar10 (d / 10), digitChar10 d, '/',
    digitChar10 (y / 1000), digitChar10 (y / 100), digitChar10 (y / 10), digitChar10 y]⟩

/-- Does a string have the `MM/DD/YYYY` shape (two digits, slash, two
digits, slash, four digits)? -/
def mdyShape (s : String) : Bool :=
  match s.data with
  | [a, b, s1, c, d, s2, e, f, g, h] =>
    a.isDigit && b.isDigit && s1 == '/' && c.isDigit && d.isDigit && s2 == '/' &&
      e.isDigit && f.isDigit && g.isDigit && h.isDigit
  | _ => false

/-- DateNormalizer (`format_date_columns`, source lines 165-173) on the
Date of Latest Change column: coerce each cell with
`pd.to_datetime(..., errors='coerce')` and render with
`.dt.strftime(DATE_FMT)`; a coercion failure leaves NaT, which
`strftime` renders as the missing marker. -/
def format_date_columns (col : List Cell) : List Cell :=
  col.map (fun c =>
    match to_datetime_coerce c with
    | some (y, m, d) => Cell.str (formatMDY y m d)
    | none => Cell.nan)

/-- Python `x or default` for an optional string: `None` and the empty
string are falsy. -/
def pyOr (x : Option String) (d : String) : String :=
  match x with
  | none => d
  | some s => if s == "" then d else s

/-- A canonical record: the ten fixed columns, all text (source lines
327-338 and 398-402). -/
structure Record where
  serialNumber : String
  deviceModel : String
  poNumber : String
  deviceOwner : String
  computerName : String
  dateOfLatestChange : String
  changedBy : String
  location : String
  classification : String
  comments : String
deriving DecidableEq, Repr

/-- Workflow-form handling for one message (source lines 317-340):
if the subject contains the workflow marker (case-insensitively),
extract the serial from the body; when the serial exists and its
lowercase form is not in `['nan', 'none', '']`, build the single
workflow record with per-field defaults and report one created entry.
Returns the optional record created and the increment applied to
`stats['entries_created']`. -/
def workflowStep (subj body sender : String) : Option Record × Nat :=
  if containsSub (pyLower subj) (pyLower WORKFLOW_SUBJECT_KEY) then
    match extract_field body "Serial Number" with
    | none => (none, 0)
    | some serial =>
      if serial != "" && !(["nan", "none", ""].contains (pyLower serial)) then
        (some {
          serialNumber := pyTrim serial
          deviceModel := pyOr (extract_field body "[HEADER: MODEL]") WORKFLOW_DEFAULT
          poNumber := ""
          deviceOwner := pyOr (extract_field body "Full Name") WORKFLOW_DEFAULT
          computerName := WORKFLOW_DEFAULT
          dateOfLatestChange := pyOr (extract_field body "Date") WORKFLOW_DEFAULT
          changedBy := pyOr ((extract_field body "[HEADER: STAFF]").map clean_name) sender
          location := pyOr (extract_field body "[HEADER: ROOM]") WORKFLOW_NO_ROOM
          classification := WORKFLOW_DEFAULT
          comments := "" }, 1)
      else (none, 0)
  else (none, 0)

/-- A data frame, column-wise: the ordered list of columns, each a name
paired with its cells (all text for the purposes of the schema pass). -/
abbrev Df : Type := List (String × List String)

/-- Number of rows of a frame (length of its first column). -/
def numRows (df : Df) : Nat :=
  match df with
  | [] => 0
  | (_, v) :: _ => v.length

/-- The canonical column schema, in order (source lines 398-402). -/
def canonical_cols : List String :=
  ["Serial Number", "Device Model", "P.O. Number", "Device Owner",
   "Computer Name", "Date of Latest Change", "Changed By",
   "Location", "Classification", "Comments"]

/-- The fill-in loop of BatchAssembler (source lines 404-405):
`for c in cols: if c not in final_df.columns: final_df[c] = ''` —
each missing column is appended, filled with empty text. -/
def addMissing (df : Df) : List String → Df
  | [] => df
  | c :: cs =>
    addMissing
      (if df.any (fun p => p.1 == c) then df
       else df ++ [(c, List.replicate (numRows df) "")]) cs

/-- Column selection `final_df[cols]` (source line 407): the named
columns in the requested order. -/
def selectCols (df : Df) (cs : List String) : Df :=
  cs.map (fun c => (c, (((df.find? (fun p => p.1 == c)).map (fun p => p.2)).getD [])))

/-- BatchAssembler's schema enforcement (source lines 404-407): create
the missing canonical columns filled with empty text, then keep exactly
the canonical columns in canonical order. -/
def enforce_schema (df : Df) : Df :=
  selectCols (addMissing df canonical_cols) canonical_cols

/-- A key of the date-consensus counter: either a real (year, month)
pair, or the (nan, nan) pair that `(dt.year, dt.month)` produces when
`dt` is NaT.  All NaT-derived tuples compare equal to one another and
unequal to every real pair in the source, because NaT's field
accessors return the one shared nan object and tuple comparison
short-circuits on identity. -/
inductive YMKey where
  | ym (y m : Nat)
  | nanPair
deriving DecidableEq, Repr

/-- Year-month key of one worksheet date cell as computed by the
outlier pass (source lines 470-473 and 479-486).  A missing cell text
(an empty worksheet cell, which is what an unnormalised NaN date has
become by this point) makes `pd.to_datetime` return NaT *without
raising*, and `NaT.year` / `NaT.month` are nan — so the cell yields
the shared (nan, nan) key rather than being skipped.  Non-empty text
either parses to a real (year, month) pair or raises, and only in the
raising case does the `except` clause skip the cell. -/
def tryParseYM (cell : Option String) : Option YMKey :=
  match cell with
  | none => some YMKey.nanPair
  | some s => (parseDate s).map (fun p => YMKey.ym p.1 p.2.1)

/-- Maximal multiplicity occurring in a list. -/
def maxCount {α} [DecidableEq α] (l : List α) : Nat :=
  (l.map (fun k => l.count k)).foldr max 0

/-- The result of `Counter(dates).most_common(1)[0][0]` (source line
478), modelled by its documented semantics: the first-encountered
element among those of maximal count (`most_common` sorts by count,
stably, over the counter's insertion order). -/
def most_common1 {α} [DecidableEq α] (l : List α) : Option α :=
  l.find? (fun k => l.count k == maxCount l)

/-- AnomalyAuditor's date-outlier sub-pass (source lines 466-486) over
the date column of the worksheet, whose cells are text or missing:
collect the per-cell keys — real (year, month) pairs for parseable
text, the shared (nan, nan) key for missing cells, nothing for text
whose parse raises — and when any keys exist flag exactly the cells
whose key differs from the consensus key.  Returns the per-cell flags
and the outlier count. -/
def date_outlier_pass (col : List (Option String)) : List Bool × Nat :=
  let dates := col.filterMap tryParseYM
  match most_common1 dates with
  | none => (col.map (fun _ => false), 0)
  | some mode =>
    let flags := col.map (fun cell =>
      match tryParseYM cell with
      | some k => k != mode
      | none => false)
    (flags, (flags.filter (fun b => b)).length)

/-- The location skip set (source line 161). -/
def skip_locs : List String :=
  ["", "NA", "N/A", "NONE", "NULL", pyUpper WORKFLOW_DEFAULT]

/-- The trimmed, uppercased location value of a cell:
`str(cell.value).strip().upper() if cell.value else ""` (source line
449). -/
def locVal (cell : Option String) : String :=
  match cell with
  | none => ""
  | some s => if s == "" then "" else pyUpper (pyTrim s)

/-- Spaces removed, as by `val.replace(" ", "")` (source line 458). -/
def stripSpaces (s : String) : String :=
  ⟨s.data.filter (fun c => c != ' ')⟩

/-- AnomalyAuditor's location sub-pass on one cell (source lines
447-463): a skip-set value is flagged missing and left untouched;
otherwise spaces are removed and the first correction key that is a
prefix has that prefix replaced by its mapped value (under the
`startswith` guard, `clean_val.replace(bad, good, 1)` rewrites the
leading occurrence).  Returns the new cell value, the missing-location
flag and the corrected flag. -/
def locStep (corrections : List (String × String)) (cell : Option String) :
    Option String × Bool × Bool :=
  let val := locVal cell
  if skip_locs.contains val then (cell, true, false)
  else
    let clean_val : String := stripSpaces val
    match corrections.find? (fun p => isPrefixL p.1.data clean_val.data) with
    | some (bad, good) => (some (good ++ ⟨clean_val.data.drop bad.data.length⟩), false, true)
    | none => (cell, false, false)

/-- AnomalyAuditor's location sub-pass over the whole column: per-cell
results plus the `corrections_count` and `missing_loc_count` totals
(source lines 444-463). -/
def location_pass (corrections : List (String × String)) (col : List (Option String)) :
    List (Option String × Bool × Bool) × Nat × Nat :=
  let results := col.map (locStep corrections)
  (results, (results.filter (fun r => r.2.2)).length,
    (results.filter (fun r => r.2.1)).length)

/-- A row of the final frame as PrioritySorter sees it: the Device
Model cell plus an opaque payload standing for the other columns. -/
structure PRow where
  model : Option String
  payload : String
deriving DecidableEq, Repr

/-- Priority test (source lines 234-235): the lowercased Device Model
text (missing read as empty) contains one of the priority fragments. -/
def is_priority_row (r : PRow) : Bool :=
  let s := (r.model.getD "").data.map Char.toLower
  ["macbook", "imac", "iphone", "ipad", "apple"].any (fun p => containsSubL p.data s)

/-- Strict comparison on index-tagged rows realising the
`sort_values(by=['_p', '_idx'], ascending=[False, True])` key (source
line 240): priority rows first, ties broken by original position. -/
def prioLt (a b : Nat × PRow) : Bool :=
  (is_priority_row a.2 && !(is_priority_row b.2)) ||
    ((is_priority_row a.2 == is_priority_row b.2) && a.1 < b.1)

/-- Insert into a list sorted by the strict comparison `lt`. -/
def insertBy (lt : α → α → Bool) (a : α) : List α → List α
  | [] => [a]
  | b :: l => if lt a b then a :: b :: l else b :: insertBy lt a l

/-- Sort by the strict comparison `lt` (insertion sort); since the
`prioLt` key carries the unique original index, this realises the
pandas sort uniquely. -/
def sortBy (lt : α → α → Bool) (l : List α) : List α :=
  l.foldr (insertBy lt) []

/-- PrioritySorter (`sort_priority_devices`, source lines 229-241): tag
each row with its position, sort by the (priority desc, position asc)
key, and drop the tags. -/
def sort_priority_devices (rows : List PRow) : List PRow :=
  (sortBy prioLt rows.enum).map (fun a => a.2)

/-- The optional master-list cross-reference (source lines 489-510):
with a reference list supplied, flag the rows whose trimmed serial is
non-empty and not among the trimmed reference identifiers; without
one, flag nothing and leave `check_performed` false.  Returns the
per-row flags, the `missing_serials` count and `check_performed`. -/
def serial_check (ref : Option (List String)) (serials : List String) :
    List Bool × Nat × Bool :=
  match ref with
  | none => (serials.map (fun _ => false), 0, false)
  | some masters =>
    let master_set := masters.map pyTrim
    let flags := serials.map (fun v =>
      let s := pyTrim v
      s != "" && !(master_set.contains s))
    (flags, (flags.filter (fun b => b)).length, true)

/-- The serial line of the final report (source line 546): a count when
the check ran, the skipped marker otherwise. -/
def serial_report (performed : Bool) (missing : Nat) : String :=
  if performed then "Unknown Serials: " ++ Nat.repr missing else "Serial Check: Skipped"

/-- Position of the first occurrence of an element in a list (the
length when absent). -/
def idxIn {α} [DecidableEq α] (a : α) : List α → Nat
  | [] => 0
  | b :: l => if b = a then 0 else idxIn a l + 1

/-- The counters of `stats` relevant to the processing loop (source
lines 123-129). -/
structure Stats where
  total_emails : Nat
  with_excel : Nat
  no_excel : Nat
deriving DecidableEq, Repr

/-- One directory entry as the processing loop sees it: whether its
name ends in `.msg`, whether opening/parsing it raises, and whether a
spreadsheet attachment was encountered before any failure. -/
structure MsgFile where
  isMsg : Bool
  crashes : Bool
  hasExcel : Bool
deriving DecidableEq, Repr

/-- One iteration of the processing loop's counting (source lines
278-281 and 342-348): non-`.msg` entries are skipped; a `.msg` file
increments `total_emails`, and then `with_excel` exactly when the
tri-state `has_excel` flag is `True` — an exception resets it to
`None`, which falls to the `no_excel` branch. -/
def count_step (st : Stats) (f : MsgFile) : Stats :=
  if !f.isMsg then st
  else
    let st := { st with total_emails := st.total_emails + 1 }
    let hasExcel : Option Bool := if f.crashes then none else some f.hasExcel
    if hasExcel == some true then { st with with_excel := st.with_excel + 1 }
    else { st with no_excel := st.no_excel + 1 }

/-- The whole processing loop's effect on the counters. -/
def run_counts (files : List MsgFile) (st : Stats) : Stats :=
  files.foldl count_step st

/-! Shared helper lemmas. -/

theorem data_append (a b : String) : (a ++ b).data = a.data ++ b.data := by
  cases a
  cases b
  rfl

theorem bad_serial_some_iff (s : String) :
    bad_serial (some s) = false ↔ junk_values.contains (pyLower (pyTrim s)) = false := by
  simp [bad_serial, pyStr]

/-- C4: RowValidator keeps a row exactly when its Serial Number cell is
present and its trimmed, lowercased text is outside the reserved junk
set; every other row — in particular every row whose serial is any
other non-empty string — survives, and no row outside the input
appears. -/
theorem c4_row_validator (rows : List (Option String × Nat)) (r : Option String × Nat) :
    r ∈ remove_bad_rows rows ↔
      r ∈ rows ∧ ∃ s, r.1 = some s ∧ junk_values.contains (pyLower (pyTrim s)) = false := by
  rw [remove_bad_rows, List.mem_filter]
  constructor
  · rintro ⟨hm, hb⟩
    rw [Bool.not_eq_true'] at hb
    refine ⟨hm, ?_⟩
    cases hv : r.1 with
    | none =>
      rw [hv] at hb
      exact absurd hb (by decide)
    | some s =>
      rw [hv] at hb
      exact ⟨s, rfl, (bad_serial_some_iff s).mp hb⟩
  · rintro ⟨hm, s, hv, hc⟩
    refine ⟨hm, ?_⟩
    rw [Bool.not_eq_true', hv]
    exact (bad_serial_some_iff s).mpr hc

theorem count_step_skip (st : Stats) (f : MsgFile) (h : f.isMsg = false) :
    count_step st f = st := by
  simp [count_step, h]

theorem count_step_msg (st : Stats) (f : MsgFile) (h : f.isMsg = true) :
    (count_step st f).total_emails = st.total_emails + 1 ∧
      (count_step st f).with_excel + (count_step st f).no_excel =
        st.with_excel + st.no_excel + 1 := by
  rcases f with ⟨m, c, e⟩
  cases c <;> cases e <;> simp_all [count_step] <;> omega

theorem count_step_crash (st : Stats) (f : MsgFile) (h : f.isMsg = true)
    (hc : f.crashes = true) :
    (count_step st f).no_excel = st.no_excel + 1 ∧
      (count_step st f).with_excel = st.with_excel := by
  rcases f with ⟨m, c, e⟩
  cases e <;> simp_all [count_step]

theorem run_counts_balance (files : List MsgFile) (st : Stats)
    (h : st.with_excel + st.no_excel = st.total_emails) :
    (run_counts files st).with_excel + (run_counts files st).no_excel =
      (run_counts files st).total_emails := by
  induction files generalizing st with
  | nil => exact h
  | cons f fs ih =>
    show (run_counts fs (count_step st f)).with_excel + _ = _
    apply ih
    cases hm : f.isMsg with
    | false => rw [count_step_skip st f hm]; exact h
    | true =>
      obtain ⟨h1, h2⟩ := count_step_msg st f hm
      omega

/-- C10: every `.msg` directory entry increments `total_emails` exactly
once, then exactly one of `with_excel` / `no_excel` (a crash during
open or parse lands in the no-excel branch, since the error handler
resets the tri-state flag); entries not ending in `.msg` leave the
counters alone; consequently, starting from balanced counters — in
particular the initial zeros — `with_excel + no_excel = total_emails`
holds at report time. -/
theorem c10_stats_invariant :
    (∀ st f, f.isMsg = true →
      (count_step st f).total_emails = st.total_emails + 1 ∧
        (count_step st f).with_excel + (count_step st f).no_excel =
          st.with_excel + st.no_excel + 1) ∧
    (∀ st f, f.isMsg = true → f.crashes = true →
      (count_step st f).no_excel = st.no_excel + 1 ∧
        (count_step st f).with_excel = st.with_excel) ∧
    (∀ st f, f.isMsg = false → count_step st f = st) ∧
    (∀ files st, st.with_excel + st.no_excel = st.total_emails →
      (run_counts files st).with_excel + (run_counts files st).no_excel =
        (run_counts files st).total_emails) :=
  ⟨count_step_msg, count_step_crash, count_step_skip, run_counts_balance⟩

/-- Witness for C10 at a concrete batch of four directory entries
(one crashing message, one with a spreadsheet, one skipped non-message
file) starting from zeroed counters. -/
theorem c10_stats_invariant_witness :
    (run_counts
        [⟨true, false, true⟩, ⟨true, true, true⟩, ⟨false, false, false⟩,
          ⟨true, false, false⟩] ⟨0, 0, 0⟩).with_excel +
      (run_counts
        [⟨true, false, true⟩, ⟨true, true, true⟩, ⟨false, false, false⟩,
          ⟨true, false, false⟩] ⟨0, 0, 0⟩).no_excel =
      (run_counts
        [⟨true, false, true⟩, ⟨true, true, true⟩, ⟨false, false, false⟩,
          ⟨true, false, false⟩] ⟨0, 0, 0⟩).total_emails :=
  c10_stats_invariant.2.2.2
    [⟨true, false, true⟩, ⟨true, true, true⟩, ⟨false, false, false⟩,
      ⟨true, false, false⟩] ⟨0, 0, 0⟩ (by decide)

/-- C9: with a reference list supplied, the cross-reference sub-pass
flags exactly the rows whose trimmed serial is non-empty and not among
the trimmed reference identifiers (for the set SN001/SN002 against
serials SN001/SN003, exactly the SN003 row), the mismatch count is the
number of flagged rows and `check_performed` is set; without a
reference list nothing is flagged, the count is zero, the flag stays
false, and the report renders the skipped marker, distinguishable from
a zero count. -/
theorem c9_serial_crossref :
    (∀ serials, serial_check none serials = (serials.map (fun _ => false), 0, false)) ∧
    (∀ masters serials,
      (serial_check (some masters) serials).2.2 = true ∧
        (serial_check (some masters) serials).1.length = serials.length) ∧
    (∀ masters serials (i : Nat) v, serials[i]? = some v →
      ((serial_check (some masters) serials).1[i]? = some true ↔
        (pyTrim v ≠ "" ∧ ¬ pyTrim v ∈ masters.map pyTrim))) ∧
    (∀ r serials, (serial_check r serials).2.1 =
      ((serial_check r serials).1.filter (fun b => b)).length) ∧
    (serial_check (some ["SN001", "SN002"]) ["SN001", "SN003"] = ([false, true], 1, true)) ∧
    (serial_report false 0 = "Serial Check: Skipped" ∧
      serial_report false 0 ≠ serial_report true 0) := by
  refine ⟨fun _ => rfl, fun _ _ => ⟨rfl, by simp [serial_check]⟩, ?_, ?_, by decide,
    by decide, by decide⟩
  · intro masters serials i v hv
    simp [serial_check, List.getElem?_map, hv, List.elem_iff]
  · intro r serials
    cases r with
    | none => simp [serial_check]
    | some masters => rfl

/-- Witness for C9: the flagging characterisation applied to the
reference set SN001/SN002 and the serial SN003 at row 1. -/
theorem c9_serial_crossref_witness :
    (serial_check (some ["SN001", "SN002"]) ["SN001", "SN003"]).1[1]? = some true ↔
      (pyTrim "SN003" ≠ "" ∧ ¬ pyTrim "SN003" ∈ (["SN001", "SN002"].map pyTrim)) :=
  c9_serial_crossref.2.2.1 ["SN001", "SN002"] ["SN001", "SN003"] 1 "SN003" (by decide)

theorem digit_lt10_isDigit : ∀ j, j < 10 → (Char.ofNat (48 + j)).isDigit = true := by decide

theorem digitChar10_isDigit (k : Nat) : (digitChar10 k).isDigit = true :=
  digit_lt10_isDigit (k % 10) (Nat.mod_lt k (by norm_num))

theorem mdyShape_formatMDY (y m d : Nat) : mdyShape (formatMDY y m d) = true := by
  simp [mdyShape, formatMDY, digitChar10_isDigit]

/-- C2 counterexample: the workflow default placeholder — a value the
date column receives in every workflow record — does not parse as a
date, and DateNormalizer replaces it with the missing marker instead of
passing it through unchanged, contrary to the claim. -/
theorem c2_date_normalizer_cex :
    format_date_columns [Cell.str "N/A, Workflow"] = [Cell.nan] ∧
      Cell.nan ≠ Cell.str "N/A, Workflow" := by decide

/-- C2 as amended: `format_date_columns` never raises and preserves the
column length; a cell whose value fails datetime coercion is replaced
by the missing marker (NaN) rather than surviving as received, while a
parseable cell is reformatted to the month/day/4-digit-year pattern. -/
theorem c2_date_normalizer (col : List Cell) :
    (format_date_columns col).length = col.length ∧
    (∀ (i : Nat) v, col[i]? = some v →
      (to_datetime_coerce v = none → (format_date_columns col)[i]? = some Cell.nan) ∧
      (∀ y m d, to_datetime_coerce v = some (y, m, d) →
        (format_date_columns col)[i]? = some (Cell.str (formatMDY y m d)) ∧
          mdyShape (formatMDY y m d) = true)) := by
  refine ⟨by simp [format_date_columns], ?_⟩
  intro i v hv
  constructor
  · intro hn
    simp [format_date_columns, List.getElem?_map, hv, hn]
  · intro y m d hs
    exact ⟨by simp [format_date_columns, List.getElem?_map, hv, hs],
      mdyShape_formatMDY y m d⟩

/-- Witness for C2 on a parseable ISO cell and an unparsable cell. -/
theorem c2_date_normalizer_witness :
    ((format_date_columns [Cell.str "2024-02-10", Cell.str "N/A, Workflow"])[0]? =
        some (Cell.str (formatMDY 2024 2 10)) ∧
      mdyShape (formatMDY 2024 2 10) = true) ∧
    (format_date_columns [Cell.str "2024-02-10", Cell.str "N/A, Workflow"])[1]? =
      some Cell.nan :=
  ⟨((c2_date_normalizer [Cell.str "2024-02-10", Cell.str "N/A, Workflow"]).2 0
      (Cell.str "2024-02-10") (by decide)).2 2024 2 10 (by decide),
    ((c2_date_normalizer [Cell.str "2024-02-10", Cell.str "N/A, Workflow"]).2 1
      (Cell.str "N/A, Workflow") (by decide)).1 (by decide)⟩

/-- C3 counterexample: for a workflow message whose body yields the
serial `n/a` — a value inside RowValidator's reserved junk set — the
code still creates a workflow record and increments
`stats['entries_created']`, because the inline guard only checks
`['nan', 'none', '']`. -/
theorem c3_workflow_creation_cex :
    bad_serial (some "n/a") = true ∧
      (workflowStep WORKFLOW_SUBJECT_KEY "Serial Number: n/a" "X").1 ≠ none ∧
      (workflowStep WORKFLOW_SUBJECT_KEY "Serial Number: n/a" "X").2 = 1 := by decide

/-- C3 as amended: at most one workflow record is produced per message
(the counter increments exactly when a record is created); a
non-matching subject or a missing serial produces nothing; and, for a
matching subject, a record is created and counted exactly when the
extracted serial is non-empty and its lowercase form is outside
`['nan', 'none', '']` — values such as `n/a`, `null` or the header
label do create and count a record, which only the later RowValidator
pass removes. -/
theorem c3_workflow_creation (subj body sender : String) :
    ((workflowStep subj body sender).2 ≤ 1) ∧
    ((workflowStep subj body sender).1 = none ↔ (workflowStep subj body sender).2 = 0) ∧
    (containsSub (pyLower subj) (pyLower WORKFLOW_SUBJECT_KEY) = false →
      workflowStep subj body sender = (none, 0)) ∧
    (extract_field body "Serial Number" = none →
      workflowStep subj body sender = (none, 0)) ∧
    (∀ s, extract_field body "Serial Number" = some s →
      containsSub (pyLower subj) (pyLower WORKFLOW_SUBJECT_KEY) = true →
      ((workflowStep subj body sender).2 = 1 ↔
        s ≠ "" ∧ ¬ pyLower s ∈ ["nan", "none", ""])) := by
  have hbool : ∀ t : String, (t != "" && !(["nan", "none", ""].contains (pyLower t))) = true ↔
      (t ≠ "" ∧ ¬ pyLower t ∈ ["nan", "none", ""]) := by
    intro t
    simp [List.contains, List.elem_iff]
  unfold workflowStep
  cases hkey : containsSub (pyLower subj) (pyLower WORKFLOW_SUBJECT_KEY) with
  | false => simp [hkey]
  | true =>
    cases hsf : extract_field body "Serial Number" with
    | none => simp [hsf]
    | some s0 =>
      cases hok : (s0 != "" && !(["nan", "none", ""].contains (pyLower s0))) with
      | false =>
        have hno : ¬(s0 ≠ "" ∧ ¬ pyLower s0 ∈ ["nan", "none", ""]) := by
          intro hc
          rw [(hbool s0).mpr hc] at hok
          cases hok
        have hno2 : ¬(¬s0 = "" ∧ ¬pyLower s0 = "nan" ∧ ¬pyLower s0 = "none" ∧
            ¬pyLower s0 = "") := by simpa using hno
        simp [hno2]
        tauto
      | true =>
        have hyes := (hbool s0).mp hok
        have hyes2 : ¬s0 = "" ∧ ¬pyLower s0 = "nan" ∧ ¬pyLower s0 = "none" ∧
            ¬pyLower s0 = "" := by simpa using hyes
        simp [hyes2]

/-- Witness for C3: the creation criterion applied to a message whose
subject is the workflow marker itself and whose body carries the serial
`n/a`. -/
theorem c3_workflow_creation_witness :
    (workflowStep WORKFLOW_SUBJECT_KEY "Serial Number: n/a" "X").2 = 1 ↔
      ("n/a" ≠ "" ∧ ¬ pyLower "n/a" ∈ ["nan", "none", ""]) :=
  (c3_workflow_creation WORKFLOW_SUBJECT_KEY "Serial Number: n/a" "X").2.2.2.2 "n/a"
    (by decide) (by decide)

/-- The element found by `List.find?` is a first such element: no
element satisfying the predicate occurs at a strictly earlier
position. -/
theorem find?_first_le {α} [DecidableEq α] (p : α → Bool) (l : List α) (r : α)
    (h : l.find? p = some r) :
    ∀ k ∈ l, p k = true → idxIn r l ≤ idxIn k l := by
  induction l with
  | nil => cases h
  | cons c l ih =>
    cases hp : p c with
    | true =>
      rw [List.find?_cons_of_pos _ hp] at h
      obtain rfl : c = r := by injection h
      intro k _ _
      simp [idxIn]
    | false =>
      rw [List.find?_cons_of_neg _ (by rw [hp]; exact Bool.false_ne_true)] at h
      have hr : p r = true := List.find?_some h
      have hcr : c ≠ r := fun he => by rw [← he, hp] at hr; cases hr
      intro k hk hpk
      have hck : c ≠ k := fun he => by rw [← he, hp] at hpk; cases hpk
      have hkl : k ∈ l := by
        cases List.mem_cons.mp hk with
        | inl he => exact absurd he (Ne.symm hck)
        | inr hm => exact hm
      simp only [idxIn, if_neg hcr, if_neg hck]
      exact Nat.succ_le_succ (ih h k hkl hpk)

/-- C7: in the location sub-pass, each cell's trimmed uppercased value
is tested against the skip set first — a hit is flagged
missing-location with the cell left untouched and nothing else done;
otherwise, after removing internal spaces, the first correction key (in
table order) that is a prefix has that prefix replaced by its mapped
value and the row counts as corrected, while a value matching no key is
left as-is; the pass counters equal the numbers of corrected and
missing rows; and on table BLD1 to BLDG1 with input location
`bld 1 203` the value becomes `BLDG1203` with one correction. -/
theorem c7_location_audit (corrections : List (String × String)) (col : List (Option String)) :
    ((location_pass corrections col).1.length = col.length) ∧
    (∀ (i : Nat) cell, col[i]? = some cell →
      (skip_locs.contains (locVal cell) = true →
        (location_pass corrections col).1[i]? = some (cell, true, false)) ∧
      (skip_locs.contains (locVal cell) = false →
        (corrections.find? (fun p => isPrefixL p.1.data (stripSpaces (locVal cell)).data) =
            none →
          (location_pass corrections col).1[i]? = some (cell, false, false)) ∧
        (∀ bad good,
          corrections.find? (fun p => isPrefixL p.1.data (stripSpaces (locVal cell)).data) =
              some (bad, good) →
          isPrefixL bad.data (stripSpaces (locVal cell)).data = true ∧
          (∀ q ∈ corrections,
            isPrefixL q.1.data (stripSpaces (locVal cell)).data = true →
            idxIn (bad, good) corrections ≤ idxIn q corrections) ∧
          (location_pass corrections col).1[i]? =
            some (some (good ++ ⟨(stripSpaces (locVal cell)).data.drop bad.data.length⟩),
              false, true)))) ∧
    ((location_pass corrections col).2.1 =
      ((location_pass corrections col).1.filter (fun r => r.2.2)).length ∧
      (location_pass corrections col).2.2 =
        ((location_pass corrections col).1.filter (fun r => r.2.1)).length) ∧
    (location_pass [("BLD1", "BLDG1")] [some "bld 1 203"] =
      ([(some "BLDG1203", false, true)], 1, 0)) := by
  refine ⟨by simp [location_pass], ?_, ⟨rfl, rfl⟩, by decide⟩
  intro i cell hv
  refine ⟨?_, ?_⟩
  · intro hskip
    have hmem : locVal cell ∈ skip_locs := by simpa using hskip
    simp [location_pass, List.getElem?_map, hv, locStep, hmem]
  · intro hskip
    have hmem : ¬ locVal cell ∈ skip_locs := by simpa using hskip
    refine ⟨?_, ?_⟩
    · intro hfind
      simp [location_pass, List.getElem?_map, hv, locStep, hmem, hfind]
    · intro bad good hfind
      have hpre : isPrefixL bad.data (stripSpaces (locVal cell)).data = true := by
        simpa using List.find?_some hfind
      refine ⟨hpre, ?_, ?_⟩
      · intro q hq hqp
        exact find?_first_le _ corrections (bad, good) hfind q hq (by simpa using hqp)
      · simp [location_pass, List.getElem?_map, hv, locStep, hmem, hfind]

/-- Witness for C7 on the cited correction table and location. -/
theorem c7_location_audit_witness :
    isPrefixL "BLD1".data (stripSpaces (locVal (some "bld 1 203"))).data = true ∧
      (location_pass [("BLD1", "BLDG1")] [some "bld 1 203"]).1[0]? =
        some (some ("BLDG1" ++
            ⟨(stripSpaces (locVal (some "bld 1 203"))).data.drop "BLD1".data.length⟩),
          false, true) :=
  ⟨((((c7_location_audit [("BLD1", "BLDG1")] [some "bld 1 203"]).2.1 0 (some "bld 1 203")
        (by decide)).2 (by decide)).2 "BLD1" "BLDG1" (by decide)).1,
    ((((c7_location_audit [("BLD1", "BLDG1")] [some "bld 1 203"]).2.1 0 (some "bld 1 203")
        (by decide)).2 (by decide)).2 "BLD1" "BLDG1" (by decide)).2.2⟩

theorem numRows_append_blank (df : Df) (c : String) :
    numRows (df ++ [(c, List.replicate (numRows df) "")]) = numRows df := by
  cases df with
  | nil => simp [numRows]
  | cons p l => simp [numRows]

theorem numRows_addMissing (df : Df) (cs : List String) :
    numRows (addMissing df cs) = numRows df := by
  induction cs generalizing df with
  | nil => rfl
  | cons c cs ih =>
    rw [addMissing]
    cases h : df.any (fun p => p.1 == c) with
    | true => rw [if_pos rfl, ih]
    | false => rw [if_neg (by simp), ih, numRows_append_blank]

theorem find?_addMissing_present (cs : List String) (df : Df) (n : String)
    (h : df.any (fun p => p.1 == n) = true) :
    (addMissing df cs).find? (fun p => p.1 == n) = df.find? (fun p => p.1 == n) := by
  induction cs generalizing df with
  | nil => rfl
  | cons c cs ih =>
    rw [addMissing]
    cases hc : df.any (fun p => p.1 == c) with
    | true => rw [if_pos rfl, ih df h]
    | false =>
      rw [if_neg (by simp)]
      have hsome : df.find? (fun p => p.1 == n) ≠ none := by
        intro hn
        obtain ⟨x, hx, hpx⟩ := List.any_eq_true.mp h
        exact absurd hpx (by simpa using List.find?_eq_none.mp hn x hx)
      have happ : (df ++ [(c, List.replicate (numRows df) "")]).any (fun p => p.1 == n) =
          true := by
        rw [List.any_append, h, Bool.true_or]
      rw [ih _ happ, List.find?_append]
      cases hf : df.find? (fun p => p.1 == n) with
      | none => exact absurd hf hsome
      | some v => rfl

theorem find?_addMissing_absent (cs : List String) (df : Df) (n : String)
    (h : df.any (fun p => p.1 == n) = false) (hmem : n ∈ cs) :
    (addMissing df cs).find? (fun p => p.1 == n) =
      some (n, List.replicate (numRows df) "") := by
  induction cs generalizing df with
  | nil => cases hmem
  | cons c cs ih =>
    rw [addMissing]
    by_cases hcn : c = n
    · subst hcn
      rw [if_neg (by simp [h])]
      have happ : (df ++ [(c, List.replicate (numRows df) "")]).any (fun p => p.1 == c) =
          true := by
        rw [List.any_append, h, Bool.false_or]
        simp
      rw [find?_addMissing_present cs _ c happ, List.find?_append]
      have hnone : df.find? (fun p => p.1 == c) = none :=
        List.find?_eq_none.mpr (fun x hx hpx => by
          have : df.any (fun p => p.1 == c) = true := List.any_eq_true.mpr ⟨x, hx, hpx⟩
          rw [this] at h
          cases h)
      rw [hnone, Option.none_or]
      simp
    · have hmem' : n ∈ cs := by
        cases List.mem_cons.mp hmem with
        | inl he => exact absurd he.symm hcn
        | inr hm => exact hm
      cases hc : df.any (fun p => p.1 == c) with
      | true => rw [if_pos rfl, ih df h hmem']
      | false =>
        rw [if_neg (by simp)]
        have hstill : (df ++ [(c, List.replicate (numRows df) "")]).any
            (fun p => p.1 == n) = false := by
          rw [List.any_append, h, Bool.false_or]
          simpa using fun he => hcn (by exact he)
        rw [ih _ hstill hmem', numRows_append_blank]

theorem map_fst_pairs {α β} (g : α → β) (l : List α) :
    (l.map (fun c => (c, g c))).map Prod.fst = l := by
  induction l with
  | nil => rfl
  | cons a l ih => simp [ih]

/-- C5: for every input frame, BatchAssembler's schema pass emits
exactly the ten canonical columns in their fixed order; a column the
sources carried keeps its values (the first column of that name), and a
column absent from the sources is created filled with empty text, one
blank per input row. -/
theorem c5_schema_assembler (df : Df) :
    ((enforce_schema df).map Prod.fst = canonical_cols) ∧
    (∀ q ∈ enforce_schema df,
      (df.any (fun p => p.1 == q.1) = false →
        q.2 = List.replicate (numRows df) "") ∧
      (∀ v, df.find? (fun p => p.1 == q.1) = some v → q.2 = v.2)) := by
  constructor
  · exact map_fst_pairs _ canonical_cols
  · intro q hq
    simp only [enforce_schema, selectCols, List.mem_map] at hq
    obtain ⟨c, hc, hqe⟩ := hq
    subst hqe
    constructor
    · intro habs
      have he := find?_addMissing_absent canonical_cols df c (by simpa using habs) hc
      simp [he]
    · intro v hv
      have hv2 : df.find? (fun p => p.1 == c) = some v := hv
      have hmem2 := List.mem_of_find?_eq_some hv2
      have hp := List.find?_some hv2
      have hany : df.any (fun p => p.1 == c) = true :=
        List.any_eq_true.mpr ⟨v, hmem2, hp⟩
      have he := find?_addMissing_present canonical_cols df c hany
      simp [he, hv2]

/-- Witness for C5 on a two-column frame: the emitted header is the
canonical one, and the absent Device Model column comes out filled with
one blank. -/
theorem c5_schema_assembler_witness :
    ((enforce_schema [("Comments", ["c"]), ("Serial Number", ["A1"])]).map Prod.fst =
      canonical_cols) ∧
    ("Device Model", ([""] : List String)).2 =
      List.replicate (numRows [("Comments", ["c"]), ("Serial Number", ["A1"])]) "" :=
  ⟨(c5_schema_assembler [("Comments", ["c"]), ("Serial Number", ["A1"])]).1,
    ((c5_schema_assembler [("Comments", ["c"]), ("Serial Number", ["A1"])]).2
      ("Device Model", [""]) (by decide)).1 (by decide)⟩

theorem insertBy_front {α} (lt : α → α → Bool) (a : α) (l : List α)
    (h : l = [] ∨ ∀ b, l.head? = some b → lt a b = true) :
    insertBy lt a l = a :: l := by
  cases l with
  | nil => rfl
  | cons b l =>
    cases h with
    | inl he => cases he
    | inr hb => simp [insertBy, hb b rfl]

theorem insertBy_skip {α} (lt : α → α → Bool) (a : α) (l1 l2 : List α)
    (h : ∀ b ∈ l1, lt a b = false) :
    insertBy lt a (l1 ++ l2) = l1 ++ insertBy lt a l2 := by
  induction l1 with
  | nil => rfl
  | cons b l1 ih =>
    have hab : lt a b = false := h b (List.mem_cons_self b l1)
    have ih2 := ih (fun x hx => h x (List.mem_cons_of_mem b hx))
    simp [insertBy, hab, ih2]

theorem sortBy_prioLt_partition (l : List (Nat × PRow))
    (h : l.Pairwise (fun a b => a.1 < b.1)) :
    sortBy prioLt l =
      l.filter (fun a => is_priority_row a.2) ++
        l.filter (fun a => !(is_priority_row a.2)) := by
  induction l with
  | nil => rfl
  | cons x l ih =>
    have hx : ∀ b ∈ l, x.1 < b.1 := (List.pairwise_cons.mp h).1
    have hrec : sortBy prioLt l =
        l.filter (fun a => is_priority_row a.2) ++
          l.filter (fun a => !(is_priority_row a.2)) :=
      ih (List.pairwise_cons.mp h).2
    show insertBy prioLt x (sortBy prioLt l) = _
    rw [hrec]
    cases hp : is_priority_row x.2 with
    | true =>
      rw [insertBy_front]
      · simp [List.filter_cons, hp]
      · cases hAB : l.filter (fun a => is_priority_row a.2) ++
            l.filter (fun a => !(is_priority_row a.2)) with
        | nil => exact Or.inl rfl
        | cons b rest =>
          refine Or.inr ?_
          intro b2 hb2
          obtain rfl : b = b2 := by injection hb2
          have hbmem : b ∈ l := by
            have : b ∈ l.filter (fun a => is_priority_row a.2) ++
                l.filter (fun a => !(is_priority_row a.2)) := by
              rw [hAB]; exact List.mem_cons_self b rest
            cases List.mem_append.mp this with
            | inl hm => exact List.mem_of_mem_filter hm
            | inr hm => exact List.mem_of_mem_filter hm
          cases hpb : is_priority_row b.2 with
          | true => simp [prioLt, hp, hpb, hx b hbmem]
          | false => simp [prioLt, hp, hpb]
    | false =>
      have hskip : ∀ b ∈ l.filter (fun a => is_priority_row a.2), prioLt x b = false := by
        intro b hb
        have hpb : is_priority_row b.2 = true := by
          simpa using (List.mem_filter.mp hb).2
        simp [prioLt, hp, hpb]
      rw [insertBy_skip _ _ _ _ hskip, insertBy_front]
      · simp [List.filter_cons, hp]
      · cases hB : l.filter (fun a => !(is_priority_row a.2)) with
        | nil => exact Or.inl rfl
        | cons b rest =>
          refine Or.inr ?_
          intro b2 hb2
          obtain rfl : b = b2 := by injection hb2
          have hbmem : b ∈ l := by
            have : b ∈ l.filter (fun a => !(is_priority_row a.2)) := by
              rw [hB]; exact List.mem_cons_self b rest
            exact List.mem_of_mem_filter this
          have hpb : is_priority_row b.2 = false := by
            have := (List.mem_filter.mp (hB ▸ List.mem_cons_self b rest)).2
            simpa using this
          simp [prioLt, hp, hpb, hx b hbmem]

theorem pairwise_fst_lt_enumFrom (l : List PRow) (n : Nat) :
    (l.enumFrom n).Pairwise (fun a b => a.1 < b.1) := by
  induction l generalizing n with
  | nil => exact List.Pairwise.nil
  | cons x l ih =>
    rw [List.enumFrom]
    refine List.pairwise_cons.mpr ⟨?_, ih (n + 1)⟩
    intro b hb
    have := List.le_fst_of_mem_enumFrom hb
    omega

theorem filter_map_snd_enumFrom (p : PRow → Bool) (l : List PRow) (n : Nat) :
    ((l.enumFrom n).filter (fun a => p a.2)).map (fun a => a.2) = l.filter p := by
  induction l generalizing n with
  | nil => rfl
  | cons x l ih =>
    rw [List.enumFrom]
    cases hp : p x with
    | true => simp [List.filter_cons, hp, ih]
    | false => simp [List.filter_cons, hp, ih]

/-- C8: PrioritySorter is a stable partition — for every input
sequence, the output is exactly the priority rows in their original
relative order followed by the non-priority rows in their original
relative order. -/
theorem c8_priority_sorter (rows : List PRow) :
    sort_priority_devices rows =
      rows.filter is_priority_row ++ rows.filter (fun r => !(is_priority_row r)) := by
  unfold sort_priority_devices
  have he : rows.enum = rows.enumFrom 0 := rfl
  rw [he, sortBy_prioLt_partition (rows.enumFrom 0) (pairwise_fst_lt_enumFrom rows 0),
    List.map_append, filter_map_snd_enumFrom is_priority_row rows 0,
    filter_map_snd_enumFrom (fun r => !(is_priority_row r)) rows 0]

theorem foldr_max_mem (xs : List Nat) : xs ≠ [] → xs.foldr max 0 ∈ xs := by
  induction xs with
  | nil => intro h; exact absurd rfl h
  | cons x l ih =>
    intro _
    by_cases hln : l = []
    · subst hln; simp
    · have hm := ih hln
      show max x (l.foldr max 0) ∈ x :: l
      rcases Nat.le_total (l.foldr max 0) x with hle | hle
      · rw [Nat.max_eq_left hle]; exact List.mem_cons_self x l
      · rw [Nat.max_eq_right hle]; exact List.mem_cons_of_mem x hm

theorem le_foldr_max (xs : List Nat) : ∀ x ∈ xs, x ≤ xs.foldr max 0 := by
  induction xs with
  | nil => intro x hx; cases hx
  | cons a l ih =>
    intro x hx
    rw [List.foldr_cons]
    cases List.mem_cons.mp hx with
    | inl he => subst he; exact Nat.le_max_left _ _
    | inr hm => exact Nat.le_trans (ih x hm) (Nat.le_max_right _ _)

theorem count_le_maxCount {α} [DecidableEq α] (l : List α) (k : α) (hk : k ∈ l) :
    l.count k ≤ maxCount l :=
  le_foldr_max (l.map fun k2 => l.count k2) (l.count k) (List.mem_map_of_mem _ hk)

theorem maxCount_attained {α} [DecidableEq α] (l : List α) (h : l ≠ []) :
    ∃ k ∈ l, l.count k = maxCount l := by
  have hmem := foldr_max_mem (l.map fun k => l.count k)
    (by cases l with | nil => exact absurd rfl h | cons a t => simp)
  obtain ⟨k, hk, he⟩ := List.mem_map.mp hmem
  exact ⟨k, hk, he⟩

theorem most_common1_isSome {α} [DecidableEq α] (l : List α) (h : l ≠ []) :
    ∃ m, most_common1 l = some m := by
  obtain ⟨k, hk, hc⟩ := maxCount_attained l h
  cases hm : most_common1 l with
  | some m => exact ⟨m, rfl⟩
  | none =>
    exfalso
    exact List.find?_eq_none.mp hm k hk (by simp [hc])

/-- C6 counterexample: a record whose date cell is missing — hence
carries no parseable date — is flagged by the code whenever the
consensus is a real month (first batch: five January 2024 dates and
one empty cell, the empty-cell record is flagged); and when the
missing cells outnumber every real month they take over the consensus
and the sole parseable January 2024 record is flagged instead (second
batch).  The claim instead requires unparsable values to be excluded
from both the consensus computation and the flagging pass, which
would leave the first batch's missing-date record unflagged and the
second batch with a January consensus and zero flags among parseable
records. -/
theorem c6_date_outlier_cex :
    (date_outlier_pass [some "01/05/2024", some "01/06/2024", some "01/07/2024",
        some "01/08/2024", some "01/09/2024", none] =
      ([false, false, false, false, false, true], 1)) ∧
    (date_outlier_pass [some "01/05/2024", none, none] = ([true, false, false], 1)) := by
  decide

/-- C6 as amended: only date text whose parse raises is excluded from
the consensus and never flagged; a missing date cell coerces to NaT
without raising, so it contributes the shared (nan, nan) key to the
consensus counter and is flagged exactly when the consensus key
differs from it.  The consensus is a most frequent key — real months
and the (nan, nan) key competing alike — with ties resolved in favour
of the first-encountered key; every keyed record is flagged exactly
when its key differs from the consensus; with no keys at all (no
parseable date and no missing cell) the sub-pass is skipped with no
flags; on the all-parseable batch of five January 2024 dates and one
February 2024 date exactly the February record is flagged, while a
missing cell in place of the February date is flagged likewise, and
two missing cells against one January date flag the January record. -/
theorem c6_date_outlier_audit (col : List (Option String)) :
    ((date_outlier_pass col).1.length = col.length) ∧
    (tryParseYM none = some YMKey.nanPair) ∧
    (∀ s, parseDate s = none → tryParseYM (some s) = none) ∧
    (col.filterMap tryParseYM = [] →
      date_outlier_pass col = (col.map (fun _ => false), 0)) ∧
    (col.filterMap tryParseYM ≠ [] →
      ∃ mode, most_common1 (col.filterMap tryParseYM) = some mode) ∧
    (∀ (i : Nat) cell, col[i]? = some cell → tryParseYM cell = none →
      (date_outlier_pass col).1[i]? = some false) ∧
    (∀ mode, most_common1 (col.filterMap tryParseYM) = some mode →
      (mode ∈ col.filterMap tryParseYM ∧
        (∀ k ∈ col.filterMap tryParseYM,
          (col.filterMap tryParseYM).count k ≤ (col.filterMap tryParseYM).count mode) ∧
        (∀ k ∈ col.filterMap tryParseYM,
          (col.filterMap tryParseYM).count k = (col.filterMap tryParseYM).count mode →
          idxIn mode (col.filterMap tryParseYM) ≤ idxIn k (col.filterMap tryParseYM))) ∧
      (∀ (i : Nat) cell, col[i]? = some cell → ∀ k, tryParseYM cell = some k →
        (date_outlier_pass col).1[i]? = some (k != mode))) ∧
    ((date_outlier_pass col).2 =
      ((date_outlier_pass col).1.filter (fun b => b)).length) ∧
    (date_outlier_pass [some "01/05/2024", some "01/06/2024", some "01/07/2024",
        some "01/08/2024", some "01/09/2024", some "02/10/2024"] =
      ([false, false, false, false, false, true], 1)) ∧
    (date_outlier_pass [some "01/05/2024", some "01/06/2024", some "01/07/2024",
        some "01/08/2024", some "01/09/2024", none] =
      ([false, false, false, false, false, true], 1)) ∧
    (date_outlier_pass [some "01/05/2024", none, none] = ([true, false, false], 1)) := by
  refine ⟨?_, rfl, ?_, ?_, ?_, ?_, ?_, ?_, by decide, by decide, by decide⟩
  · cases hm : most_common1 (col.filterMap tryParseYM) with
    | none => simp only [date_outlier_pass, hm]; simp
    | some mode => simp only [date_outlier_pass, hm]; simp
  · intro s h
    simp [tryParseYM, h]
  · intro hd
    simp only [date_outlier_pass, hd]
    rfl
  · exact most_common1_isSome _
  · intro i cell hv hp
    have hlt : i < col.length := by
      rcases List.getElem?_eq_some.mp hv with ⟨h, _⟩
      exact h
    cases hm : most_common1 (col.filterMap tryParseYM) with
    | none => simp only [date_outlier_pass, hm]; simp [List.getElem?_map, hv, hlt]
    | some mode => simp only [date_outlier_pass, hm]; simp [List.getElem?_map, hv, hp]
  · intro mode hm
    have hmem := List.mem_of_find?_eq_some hm
    have hcm : (col.filterMap tryParseYM).count mode =
        maxCount (col.filterMap tryParseYM) := by
      simpa using List.find?_some hm
    refine ⟨⟨hmem, ?_, ?_⟩, ?_⟩
    · intro k hk
      rw [hcm]
      exact count_le_maxCount _ k hk
    · intro k hk hke
      exact find?_first_le _ _ mode hm k hk (by rw [hke, hcm]; simp)
    · intro i cell hv k hp
      simp only [date_outlier_pass, hm]
      simp [List.getElem?_map, hv, hp]
  · cases hm : most_common1 (col.filterMap tryParseYM) with
    | none => simp only [date_outlier_pass, hm]; simp
    | some mode => simp only [date_outlier_pass, hm]

/-- Witness for C6: in the batch of five January 2024 dates and one
missing date cell, the January key is in the consensus input and the
missing-cell record at row 5 is flagged via its (nan, nan) key. -/
theorem c6_date_outlier_audit_witness :
    (YMKey.ym 2024 1 ∈ [some "01/05/2024", some "01/06/2024", some "01/07/2024",
        some "01/08/2024", some "01/09/2024", none].filterMap tryParseYM) ∧
    (date_outlier_pass [some "01/05/2024", some "01/06/2024", some "01/07/2024",
        some "01/08/2024", some "01/09/2024", none]).1[5]? =
      some (YMKey.nanPair != YMKey.ym 2024 1) :=
  ⟨((c6_date_outlier_audit [some "01/05/2024", some "01/06/2024", some "01/07/2024",
      some "01/08/2024", some "01/09/2024", none]).2.2.2.2.2.2.1 (YMKey.ym 2024 1)
      (by decide)).1.1,
    ((c6_date_outlier_audit [some "01/05/2024", some "01/06/2024", some "01/07/2024",
      some "01/08/2024", some "01/09/2024", none]).2.2.2.2.2.2.1 (YMKey.ym 2024 1)
      (by decide)).2 5 none (by decide) YMKey.nanPair (by decide)⟩

theorem stripLabelCI_append (l r : List Char) : stripLabelCI l (l ++ r) = some r := by
  induction l with
  | nil => rfl
  | cons c l ih => simp [stripLabelCI, ih]

theorem dropWhile_all_append (p : Char → Bool) (l1 l2 : List Char)
    (h : ∀ x ∈ l1, p x = true) :
    (l1 ++ l2).dropWhile p = l2.dropWhile p := by
  induction l1 with
  | nil => rfl
  | cons c l1 ih =>
    rw [List.cons_append, List.dropWhile_cons, if_pos (by simp [h c (List.mem_cons_self c l1)])]
    exact ih (fun x hx => h x (List.mem_cons_of_mem c hx))

theorem dropWhile_eq_nil_of_all (p : Char → Bool) (l : List Char)
    (h : ∀ x ∈ l, p x = true) :
    l.dropWhile p = [] := by
  induction l with
  | nil => rfl
  | cons c l ih =>
    rw [List.dropWhile_cons, if_pos (by simp [h c (List.mem_cons_self c l)])]
    exact ih (fun x hx => h x (List.mem_cons_of_mem c hx))

theorem dropWhile_idem (p : Char → Bool) (l : List Char) :
    (l.dropWhile p).dropWhile p = l.dropWhile p := by
  induction l with
  | nil => rfl
  | cons c l ih =>
    rw [List.dropWhile_cons]
    cases hp : p c with
    | true => simpa using ih
    | false => simp [List.dropWhile_cons, hp]

theorem takeWhile_all (p : Char → Bool) (l : List Char) (h : ∀ x ∈ l, p x = true) :
    l.takeWhile p = l := by
  induction l with
  | nil => rfl
  | cons c l ih =>
    rw [List.takeWhile_cons, if_pos (by simp [h c (List.mem_cons_self c l)])]
    rw [ih (fun x hx => h x (List.mem_cons_of_mem c hx))]

theorem stripL_dropWhile (l : List Char) : stripL (l.dropWhile wsChar) = stripL l := by
  rw [stripL, stripL, dropWhile_idem]

theorem reMatchAt_label_colon (label : String) (rest : List Char) :
    reMatchAt label.data (label.data ++ ':' :: rest) =
      some ((rest.dropWhile wsChar).takeWhile (fun c2 => c2 != '\n'),
        (rest.dropWhile wsChar).drop
          (((rest.dropWhile wsChar).takeWhile (fun c2 => c2 != '\n')).length)) := by
  have hcolon : (':' :: rest).dropWhile wsChar = ':' :: rest := by
    rw [List.dropWhile_cons, if_neg (by simp [wsChar])]
  simp only [reMatchAt, stripLabelCI_append, hcolon]
  simp

theorem reSearch_head (label cs : List Char) (r : List Char × List Char)
    (h : reMatchAt label cs = some r) :
    reSearch label cs = some r := by
  simp [reSearch, List.findSome?_cons, h]

/-- C1 counterexample: with the label line `L:` followed by a blank
line and then `V`, the extractor returns `V` — the greedy whitespace
class in the search pattern crosses the blank line — whereas the claim
requires the result to be `not found` whenever the line right after
the label is blank. -/
theorem c1_field_extractor_cex : extract_field "L:\n\nV" "L" = some "V" := by decide

/-- C1 as amended: when a line holds the label and a colon with
nothing after it, FieldExtractor returns the trimmed content of the
first subsequent non-blank line, skipping any number of blank lines in
between; it yields `not found` exactly when nothing but whitespace
follows the colon. -/
theorem c1_field_extractor_lookahead (label V : String) (k : Nat)
    (hnl : ∀ c ∈ V.data, (c != '\n') = true) (hne : stripL V.data ≠ []) :
    extract_field (label ++ ":" ++ ⟨List.replicate (k + 1) '\n'⟩ ++ V) label =
      some ⟨stripL V.data⟩ ∧
    extract_field (label ++ ":" ++ ⟨List.replicate k '\n'⟩) label = none := by
  constructor
  · have hdata : (label ++ ":" ++ (⟨List.replicate (k + 1) '\n'⟩ : String) ++ V).data =
        label.data ++ ':' :: (List.replicate (k + 1) '\n' ++ V.data) := by
      simp [data_append]
    have hW : (List.replicate (k + 1) '\n' ++ V.data).dropWhile wsChar =
        V.data.dropWhile wsChar := by
      apply dropWhile_all_append
      intro x hx
      rw [List.eq_of_mem_replicate hx]
      decide
    have hall : ∀ x ∈ V.data.dropWhile wsChar, (x != '\n') = true :=
      fun x hx => hnl x ((List.dropWhile_sublist wsChar).subset hx)
    have hmatch := reMatchAt_label_colon label (List.replicate (k + 1) '\n' ++ V.data)
    rw [hW, takeWhile_all _ _ hall, List.drop_length] at hmatch
    simp only [extract_field, hdata]
    rw [reSearch_head _ _ _ hmatch]
    simp [stripL_dropWhile, hne]
  · have hdata : (label ++ ":" ++ (⟨List.replicate k '\n'⟩ : String)).data =
        label.data ++ ':' :: List.replicate k '\n' := by
      simp [data_append]
    have hW : (List.replicate k '\n').dropWhile wsChar = [] := by
      apply dropWhile_eq_nil_of_all
      intro x hx
      rw [List.eq_of_mem_replicate hx]
      decide
    have hmatch := reMatchAt_label_colon label (List.replicate k '\n')
    rw [hW] at hmatch
    simp only [extract_field, hdata]
    rw [reSearch_head _ _ _ hmatch]
    simp [firstLineLoop, pySplitlines, stripL]

/-- Witness for C1 on the label Serial Number, two blank lines, and a
non-blank value line. -/
theorem c1_field_extractor_lookahead_witness :
    extract_field ("Serial Number" ++ ":" ++ (⟨List.replicate 3 '\n'⟩ : String) ++ " AB12 ")
        "Serial Number" = some ⟨stripL " AB12 ".data⟩ ∧
      extract_field ("Serial Number" ++ ":" ++ (⟨List.replicate 2 '\n'⟩ : String))
        "Serial Number" = none :=
  c1_field_extractor_lookahead "Serial Number" " AB12 " 2 (by decide) (by decide)

end Inv
